import Mathlib

/-!
# tm: tekton Task deployment (`pkg/resources/task/create.go`)

A shallow embedding of the Task deploy flow: the in-memory mutations applied to
a tekton Task object (`setupEnv`, `setupVolume`, `customStep`, the naming rules
of `Deploy` and `Clone`), the create-or-update reconciler and the owner linker.

Modelling conventions

* Go slices are lists, and `append(xs, x)` is `xs ++ [x]`, wherever the code
  only builds or replaces a slice. The two loops that `append` to slices the
  caller handed in, `setupEnv` and `setupVolume`, are embedded twice: on slice
  headers over explicit backing arrays (`setupEnvSliced`, `setupVolumeSliced`),
  which is what the code does on any input, and on lists (`setupEnv`,
  `setupVolume`), which is what the former computes when no two step slices
  overlap (`sliced_view_setup`).
* A pointer that may be nil is an `Option`; a pointer the code dereferences
  without a check makes the run end in `Outcome.nilDeref`.
* The cluster client is an arbitrary state machine over a state type `σ`. Every
  call the code issues is appended to a trace, so that "which calls, in which
  order, with which argument" is part of the result of a run.
* A client call does not write to the object it is handed.
* `clientset.Log.Debugf` only prints; it is left out, except that evaluating
  its arguments may dereference a nil pointer.
* An error built by `fmt.Errorf(format, args...)` is a constructor of `Error`
  carrying the arguments; the text of the message is not modelled.
-/

namespace Tm

/-! ## Data model -/

/-- Go `corev1.EnvVar` (the fields this package sets). -/
structure EnvVar where
  Name : String
  Value : String
deriving DecidableEq, Repr

/-- Go `corev1.VolumeMount`. -/
structure VolumeMount where
  Name : String
  MountPath : String
  ReadOnly : Bool
deriving DecidableEq, Repr

/-- Go `corev1.SecretVolumeSource`. -/
structure SecretVolumeSource where
  SecretName : String
deriving DecidableEq, Repr

/-- Go `corev1.VolumeSource`; `Secret` is a pointer in Go. -/
structure VolumeSource where
  Secret : Option SecretVolumeSource
deriving DecidableEq, Repr

/-- Go `corev1.Volume`. -/
structure Volume where
  Name : String
  VolumeSource : VolumeSource
deriving DecidableEq, Repr

/-- Go `tekton.Step`, which embeds `corev1.Container`. -/
structure Step where
  Name : String
  Image : String
  Command : List String
  Args : List String
  Env : List EnvVar
  VolumeMounts : List VolumeMount
deriving DecidableEq, Repr

/-- Go `tekton.ParamSpec`; `Type_` is Go's field `Type`, the empty string when unset. -/
structure ParamSpec where
  Name : String
  Type_ : String
deriving DecidableEq, Repr

/-- Go `tekton.TaskResource`; `Type_` is Go's field `Type`. -/
structure TaskResource where
  Name : String
  Type_ : String
deriving DecidableEq, Repr

/-- Go `tekton.Inputs`. -/
structure Inputs where
  Resources : List TaskResource
  Params : List ParamSpec
deriving DecidableEq, Repr

/-- Go `tekton.TaskSpec`; `Inputs` is a pointer in Go. -/
structure TaskSpec where
  Inputs : Option Inputs
  Steps : List Step
  Volumes : List Volume
deriving DecidableEq, Repr

/-- Go `metav1.OwnerReference`. -/
structure OwnerReference where
  APIVersion : String
  Kind : String
  Name : String
  UID : String
deriving DecidableEq, Repr

/-- Go `metav1.TypeMeta`. -/
structure TypeMeta where
  Kind : String
  APIVersion : String
deriving DecidableEq, Repr

/-- Go `metav1.ObjectMeta` (the fields this package reads or writes). -/
structure ObjectMeta where
  Name : String
  GenerateName : String
  Namespace : String
  ResourceVersion : String
  OwnerReferences : List OwnerReference
deriving DecidableEq, Repr

/-- Go `tekton.Task`: the remote object. -/
structure TektonTask where
  TypeMeta : TypeMeta
  ObjectMeta : ObjectMeta
  Spec : TaskSpec
deriving DecidableEq, Repr

/-- Go `task.Task`: the descriptor filled from the command line. Its type
declaration is outside the files at hand; the fields are those `create.go` uses. -/
structure Task where
  File : String
  GenerateName : String
  Name : String
  Namespace : String
  RegistrySecret : String
  FromLocalSource : Bool
deriving DecidableEq, Repr

/-- Go `error` values that can flow through this package. `kindMismatch` and
`apiMismatch` are the two `fmt.Errorf` of `CreateOrUpdate` (got, want),
`taskNotFound` the one of `Deploy`; `status` is a Kubernetes API status error
with its reason, `other` any other error. -/
inductive Error where
  | kindMismatch (got want : String)
  | apiMismatch (got want : String)
  | taskNotFound (cause : Error)
  | status (reason : String) (message : String)
  | other (message : String)
deriving DecidableEq, Repr

/-- Go `k8sErrors.IsAlreadyExists`: the error is an API status whose reason is
`AlreadyExists`; false on a nil error. -/
def IsAlreadyExists : Option Error → Bool
  | some (Error.status reason _) => reason == "AlreadyExists"
  | _ => false

/-! ## Constants -/

def kind : String := "Task"

def api : String := "tekton.dev/v1alpha1"

def uploadDoneTrigger : String := ".uploadIsDone"

/-- Go `tekton.ParamTypeString`. -/
def ParamTypeString : String := "string"

/-! ## Client and runs -/

/-- What a client call hands back: Go's `(*tekton.Task, error)`. -/
structure Reply where
  obj : Option TektonTask
  err : Option Error
deriving DecidableEq, Repr

/-- One call on `clientset.TektonPipelines.TektonV1alpha1().Tasks(ns)`. -/
inductive Call where
  | create (ns : String) (obj : TektonTask)
  | get (ns : String) (name : String)
  | update (ns : String) (obj : TektonTask)
deriving DecidableEq, Repr

/-- The tekton Task client as a state machine over `σ`. -/
structure ConfigSet (σ : Type) where
  Create : σ → String → TektonTask → Reply × σ
  Get : σ → String → String → Reply × σ
  Update : σ → String → TektonTask → Reply × σ

/-- How a Go function ends: it returns, or it dereferences a nil pointer. -/
inductive Outcome (α : Type) where
  | returned (a : α)
  | nilDeref
deriving DecidableEq, Repr

/-- The result of running an operation against a client: how it ended, the
client state afterwards and the calls issued, oldest first. -/
structure Run (σ α : Type) where
  out : Outcome α
  state : σ
  calls : List Call

/-! ## Mutations -/

/-- Go `(*Task).customStep`. The script is the `Sprintf` of the raw literal
with `uploadDoneTrigger` in place of `%s`. -/
def Task.customStep (_t : Task) : Step :=
  { Name := "sources-receiver"
    Image := "busybox"
    Command := ["sh"]
    Args := ["-c",
      "\n\t\t\t\twhile [ ! -f " ++ uploadDoneTrigger ++ " ]; do \n" ++
      "\t\t\t\t\tsleep 1; \n" ++
      "\t\t\t\tdone; \n" ++
      "\t\t\t\tsync;\n" ++
      "\t\t\t\tmkdir -p /workspace/workspace;\n" ++
      "\t\t\t\tmv /home/*/* /workspace/workspace/;\n" ++
      "\t\t\t\tif [[ $? != 0 ]]; then\n" ++
      "\t\t\t\t\tmv /home/* /workspace/workspace/;\n" ++
      "\t\t\t\tfi\n" ++
      "\t\t\t\tls -lah /workspace/workspace;\n" ++
      "\t\t\t\tsync;"]
    Env := []
    VolumeMounts := [] }

/-- Go `(*Task).setupEnv` on lists: every step gets `DOCKER_CONFIG` appended.
See `Task.setupEnvSliced` for steps whose slices share a backing array. -/
def Task.setupEnv (t : Task) (task : TektonTask) : TektonTask :=
  { task with
    Spec := { task.Spec with
      Steps := task.Spec.Steps.map fun container =>
        { container with
          Env := container.Env ++ [{ Name := "DOCKER_CONFIG", Value := "/" ++ t.RegistrySecret }] } } }

/-- Go `(*Task).setupVolume` on lists: the volume list is replaced by the one
secret volume, and every step gets the mount appended. See
`Task.setupVolumeSliced` for steps whose slices share a backing array. -/
def Task.setupVolume (t : Task) (task : TektonTask) : TektonTask :=
  { task with
    Spec := { task.Spec with
      Volumes := [{ Name := t.RegistrySecret,
                    VolumeSource := { Secret := some { SecretName := t.RegistrySecret } } }]
      Steps := task.Spec.Steps.map fun step =>
        { step with
          VolumeMounts := step.VolumeMounts ++
            [{ Name := t.RegistrySecret, MountPath := "/" ++ t.RegistrySecret, ReadOnly := true }] } } }

/-- The block `if t.RegistrySecret != ""` shared by `Deploy` and `Clone`. -/
def Task.injectSecret (t : Task) (task : TektonTask) : TektonTask :=
  if t.RegistrySecret ≠ "" then t.setupVolume (t.setupEnv task) else task

/-- The block `if t.FromLocalSource` shared by `Deploy` and `Clone`. -/
def Task.addSourceStep (t : Task) (task : TektonTask) : TektonTask :=
  if t.FromLocalSource then
    { task with
      Spec := { task.Spec with
        Steps := [t.customStep] ++ task.Spec.Steps
        Inputs := task.Spec.Inputs.map fun inputs => { inputs with Resources := [] } } }
  else task

/-- The loop of `Deploy` that sets the type of untyped input parameters. -/
def defaultParamTypes (task : TektonTask) : TektonTask :=
  { task with
    Spec := { task.Spec with
      Inputs := task.Spec.Inputs.map fun inputs =>
        { inputs with
          Params := inputs.Params.map fun v =>
            if v.Type_ = "" then { v with Type_ := ParamTypeString } else v } } }

/-- The naming block of `Deploy`: namespace, then generated or exact name. -/
def Task.setNames (t : Task) (task : TektonTask) : TektonTask :=
  let task := { task with ObjectMeta := { task.ObjectMeta with Namespace := t.Namespace } }
  if t.GenerateName ≠ "" then
    { task with ObjectMeta := { task.ObjectMeta with Name := "", GenerateName := t.GenerateName } }
  else if t.Name ≠ "" then
    { task with ObjectMeta := { task.ObjectMeta with Name := t.Name } }
  else task

/-- The mutation sequence of `Deploy`, from the loaded manifest to the object
that is returned (dry run) or submitted. -/
def Task.deployMutate (t : Task) (task : TektonTask) : TektonTask :=
  t.addSourceStep (t.injectSecret (t.setNames (defaultParamTypes task)))

/-- The mutation sequence of `Clone`, from the object passed in to the object
that is returned (dry run) or submitted. -/
def Task.cloneMutate (t : Task) (task : TektonTask) : TektonTask :=
  let task := { task with TypeMeta := { Kind := kind, APIVersion := api } }
  let task := { task with
    ObjectMeta := { task.ObjectMeta with GenerateName := task.ObjectMeta.Name ++ "-" } }
  let task := { task with ObjectMeta := { task.ObjectMeta with Name := "" } }
  let task := { task with ObjectMeta := { task.ObjectMeta with ResourceVersion := "" } }
  t.addSourceStep (t.injectSecret task)

/-! ## Slices with their backing arrays

`setupEnv` and `setupVolume` call `append` on the `Env` and `VolumeMounts`
slices of the steps. `append` writes in place when the slice has room, so what
the loops do depends on which slices view the same backing array. Here the
backing arrays are explicit; the list versions above are what these compute
when no two step slices overlap (`sliced_view_setup`). -/

/-- A Go slice header: the backing array, the offset of the first element in
it, the length, and the capacity counted from the offset. The nil slice has
length and capacity 0. -/
structure Slice where
  arr : Nat
  off : Nat
  len : Nat
  cap : Nat
deriving DecidableEq, Repr

/-- The elements a slice shows, given the backing arrays `h` (by number). -/
def Slice.read {α : Type} (s : Slice) (h : List (List α)) : List α :=
  ((h.getD s.arr []).drop s.off).take s.len

/-- Go `append(s, x)` on one element. With room (`len < cap`) the element is
written into the backing array right after the slice and the header grows by
one. Without room a new array receives a copy followed by `x`; `spare` is the
runtime's growth policy (cells allocated beyond the one needed, from the old
capacity), and the spare cells hold the zero value. -/
def goAppend {α : Type} (spare : Nat → Nat) (zero : α) (h : List (List α)) (s : Slice) (x : α) :
    List (List α) × Slice :=
  if s.len < s.cap then
    (h.set s.arr ((h.getD s.arr []).set (s.off + s.len) x), { s with len := s.len + 1 })
  else
    (h ++ [s.read h ++ [x] ++ List.replicate (spare s.cap) zero],
      { arr := h.length, off := 0, len := s.len + 1, cap := s.len + 1 + spare s.cap })

/-- A slice header that Go can hold: the length is within the capacity and the
capacity within the backing array. -/
@[reducible]
def Slice.Valid {α : Type} (h : List (List α)) (s : Slice) : Prop :=
  s.len ≤ s.cap ∧ (0 < s.cap → s.arr < h.length ∧ s.off + s.cap ≤ (h.getD s.arr []).length)

/-- Two slices whose capacity ranges share no cell. -/
@[reducible]
def Slice.Apart (a b : Slice) : Prop :=
  a.cap = 0 ∨ b.cap = 0 ∨ a.arr ≠ b.arr ∨ a.off + a.cap ≤ b.off ∨ b.off + b.cap ≤ a.off

/-- Go `tekton.Step` with `Env` and `VolumeMounts` as slice headers. -/
structure SlicedStep where
  Name : String
  Image : String
  Command : List String
  Args : List String
  Env : Slice
  VolumeMounts : Slice
deriving DecidableEq, Repr

/-- Go `tekton.Task` with the step slices held in memory: `envs` are the
backing arrays of `[]corev1.EnvVar`, `mounts` those of `[]corev1.VolumeMount`. -/
structure SlicedTask where
  envs : List (List EnvVar)
  mounts : List (List VolumeMount)
  TypeMeta : TypeMeta
  ObjectMeta : ObjectMeta
  Inputs : Option Inputs
  Steps : List SlicedStep
  Volumes : List Volume
deriving DecidableEq, Repr

/-- The object a `SlicedTask` stands for, every slice read out as a list. -/
def SlicedTask.view (task : SlicedTask) : TektonTask :=
  { TypeMeta := task.TypeMeta
    ObjectMeta := task.ObjectMeta
    Spec :=
      { Inputs := task.Inputs
        Steps := task.Steps.map fun st =>
          { Name := st.Name, Image := st.Image, Command := st.Command, Args := st.Args,
            Env := st.Env.read task.envs, VolumeMounts := st.VolumeMounts.read task.mounts }
        Volumes := task.Volumes } }

/-- The loop of `setupEnv` and of `setupVolume`: for each step in order,
`append` `x` to the slice `get` reads from the step (as it was before the
loop), and store the returned header back into the step with `put`. -/
def appendToEach {α β : Type} (spare : Nat → Nat) (zero x : α) (get : β → Slice)
    (put : β → Slice → β) : List (List α) → List β → List (List α) × List β
  | h, [] => (h, [])
  | h, b :: rest =>
    let r := goAppend spare zero h (get b) x
    let q := appendToEach spare zero x get put r.1 rest
    (q.1, put b r.2 :: q.2)

/-- Go `(*Task).setupEnv` on slices. -/
def Task.setupEnvSliced (t : Task) (spare : Nat → Nat) (task : SlicedTask) : SlicedTask :=
  let r := appendToEach spare { Name := "", Value := "" }
    { Name := "DOCKER_CONFIG", Value := "/" ++ t.RegistrySecret }
    (fun container => container.Env) (fun container envs => { container with Env := envs })
    task.envs task.Steps
  { task with envs := r.1, Steps := r.2 }

/-- Go `(*Task).setupVolume` on slices. -/
def Task.setupVolumeSliced (t : Task) (spare : Nat → Nat) (task : SlicedTask) : SlicedTask :=
  let r := appendToEach spare { Name := "", MountPath := "", ReadOnly := false }
    { Name := t.RegistrySecret, MountPath := "/" ++ t.RegistrySecret, ReadOnly := true }
    (fun step => step.VolumeMounts) (fun step mounts => { step with VolumeMounts := mounts })
    task.mounts task.Steps
  { task with
    Volumes := [{ Name := t.RegistrySecret,
                  VolumeSource := { Secret := some { SecretName := t.RegistrySecret } } }]
    mounts := r.1
    Steps := r.2 }

/-! ## Reconciler and owner linker -/

/-- Go `(*Task).CreateOrUpdate`. -/
def Task.CreateOrUpdate {σ : Type} (t : Task) (task : TektonTask) (clientset : ConfigSet σ)
    (s : σ) : Run σ (Option TektonTask × Option Error) :=
  if task.TypeMeta.Kind ≠ kind then
    ⟨.returned (none, some (.kindMismatch task.TypeMeta.Kind kind)), s, []⟩
  else if task.TypeMeta.APIVersion ≠ api then
    ⟨.returned (none, some (.apiMismatch task.TypeMeta.APIVersion api)), s, []⟩
  else if task.ObjectMeta.GenerateName ≠ "" then
    let r := clientset.Create s t.Namespace task
    ⟨.returned (r.1.obj, r.1.err), r.2, [.create t.Namespace task]⟩
  else
    let r := clientset.Create s t.Namespace task
    if IsAlreadyExists r.1.err then
      let g := clientset.Get r.2 t.Namespace task.ObjectMeta.Name
      match g.1.err, g.1.obj with
      | some err, _ =>
        ⟨.returned (none, some err), g.2,
          [.create t.Namespace task, .get t.Namespace task.ObjectMeta.Name]⟩
      | none, none =>
        ⟨.nilDeref, g.2, [.create t.Namespace task, .get t.Namespace task.ObjectMeta.Name]⟩
      | none, some taskObj =>
        let task' := { task with
          ObjectMeta := { task.ObjectMeta with
            ResourceVersion := taskObj.ObjectMeta.ResourceVersion } }
        let u := clientset.Update g.2 t.Namespace task'
        ⟨.returned (u.1.obj, u.1.err), u.2,
          [.create t.Namespace task, .get t.Namespace task.ObjectMeta.Name,
           .update t.Namespace task']⟩
    else
      ⟨.returned (r.1.obj, r.1.err), r.2, [.create t.Namespace task]⟩

/-- Go `(*Task).SetOwner`. -/
def Task.SetOwner {σ : Type} (t : Task) (clientset : ConfigSet σ) (owner : OwnerReference)
    (s : σ) : Run σ (Option Error) :=
  let g := clientset.Get s t.Namespace t.Name
  match g.1.err, g.1.obj with
  | some err, _ => ⟨.returned (some err), g.2, [.get t.Namespace t.Name]⟩
  | none, none => ⟨.nilDeref, g.2, [.get t.Namespace t.Name]⟩
  | none, some task =>
    let task' := { task with ObjectMeta := { task.ObjectMeta with OwnerReferences := [owner] } }
    let u := clientset.Update g.2 t.Namespace task'
    ⟨.returned u.1.err, u.2, [.get t.Namespace t.Name, .update t.Namespace task']⟩

/-! ## Deploy and Clone -/

/-- The collaborators of `Deploy` outside this package: `file.IsLocal`,
`file.Download`, `ioutil.ReadFile`, and `yaml.Unmarshal` into a zero `tekton.Task`
(the decoded object together with the decoding error, if any). -/
structure Files where
  IsLocal : String → Bool
  Download : String → Except Error String
  ReadFile : String → Except Error String
  Unmarshal : String → TektonTask × Option Error

/-- The zero value of `tekton.Task`. -/
def zeroTask : TektonTask :=
  { TypeMeta := { Kind := "", APIVersion := "" }
    ObjectMeta := { Name := "", GenerateName := "", Namespace := "", ResourceVersion := "",
                    OwnerReferences := [] }
    Spec := { Inputs := none, Steps := [], Volumes := [] } }

/-- Go `(*Task).readYAML`. -/
def Task.readYAML (t : Task) (fs : Files) : TektonTask × Option Error :=
  match fs.ReadFile t.File with
  | .error err => (zeroTask, some err)
  | .ok yamlFile => fs.Unmarshal yamlFile

/-- Go `(*Task).Deploy`; `dry` is the package variable `client.Dry`. The
assignment `t.File = path` is visible here only through `readYAML`. -/
def Task.Deploy {σ : Type} (t : Task) (fs : Files) (dry : Bool) (clientset : ConfigSet σ)
    (s : σ) : Run σ (Option TektonTask × Option Error) :=
  match (if fs.IsLocal t.File then Except.ok t.File else fs.Download t.File) with
  | .error err => ⟨.returned (none, some (.taskNotFound err)), s, []⟩
  | .ok path =>
    let t := { t with File := path }
    match t.readYAML fs with
    | (_, some err) => ⟨.returned (none, some err), s, []⟩
    | (task, none) =>
      let task := t.deployMutate task
      if dry then ⟨.returned (some task, none), s, []⟩
      else t.CreateOrUpdate task clientset s

/-- Go `(*Task).Clone`; `dry` is the package variable `client.Dry`. -/
def Task.Clone {σ : Type} (t : Task) (dry : Bool) (clientset : ConfigSet σ) (task : TektonTask)
    (s : σ) : Run σ (Option TektonTask × Option Error) :=
  let task := t.cloneMutate task
  if dry then ⟨.returned (some task, none), s, []⟩
  else t.CreateOrUpdate task clientset s

/-! ## A small in-memory cluster

Used to run the operations on concrete inputs. Objects are kept in a list and
found by name; the namespace is not looked at. -/

def memCreate (s : List TektonTask) (_ns : String) (obj : TektonTask) :
    Reply × List TektonTask :=
  if obj.ObjectMeta.GenerateName = "" ∧
      s.any (fun o => o.ObjectMeta.Name == obj.ObjectMeta.Name) then
    (⟨none, some (.status "AlreadyExists" obj.ObjectMeta.Name)⟩, s)
  else (⟨some obj, none⟩, s ++ [obj])

def memGet (s : List TektonTask) (_ns : String) (name : String) : Reply × List TektonTask :=
  match s.find? (fun o => o.ObjectMeta.Name == name) with
  | some o => (⟨some o, none⟩, s)
  | none => (⟨none, some (.status "NotFound" name)⟩, s)

def memUpdate (s : List TektonTask) (_ns : String) (obj : TektonTask) :
    Reply × List TektonTask :=
  if s.any (fun o => o.ObjectMeta.Name == obj.ObjectMeta.Name) then
    (⟨some obj, none⟩,
      s.map fun o => if o.ObjectMeta.Name == obj.ObjectMeta.Name then obj else o)
  else (⟨none, some (.status "NotFound" obj.ObjectMeta.Name)⟩, s)

def memClient : ConfigSet (List TektonTask) :=
  { Create := memCreate, Get := memGet, Update := memUpdate }

/-- A cluster that turns every create down as AlreadyExists. -/
def rejectingClient : ConfigSet Unit :=
  { Create := fun s _ obj => (⟨none, some (.status "AlreadyExists" obj.ObjectMeta.Name)⟩, s)
    Get := fun s _ name => (⟨none, some (.status "NotFound" name)⟩, s)
    Update := fun s _ obj => (⟨none, some (.status "NotFound" obj.ObjectMeta.Name)⟩, s) }

/-- A one-step build task named `name`, as a manifest would declare it. -/
def sampleTask (name : String) : TektonTask :=
  { TypeMeta := { Kind := "Task", APIVersion := "tekton.dev/v1alpha1" }
    ObjectMeta := { Name := name, GenerateName := "", Namespace := "default",
                    ResourceVersion := "", OwnerReferences := [] }
    Spec := { Inputs := some { Resources := [{ Name := "sources", Type_ := "git" }],
                               Params := [{ Name := "IMAGE", Type_ := "" }] }
              Steps := [{ Name := "build", Image := "kaniko", Command := ["/kaniko/executor"],
                          Args := ["--destination=img"],
                          Env := [{ Name := "HOME", Value := "/root" }],
                          VolumeMounts := [] }]
              Volumes := [] } }

/-- The descriptor of `tm deploy task name`. -/
def sampleDescriptor (name : String) : Task :=
  { File := "task.yaml", GenerateName := "", Name := name, Namespace := "default",
    RegistrySecret := "", FromLocalSource := false }

/-- A stored copy of `sampleTask name` with resource version `rv`. -/
def storedTask (name rv : String) : TektonTask :=
  { sampleTask name with
    ObjectMeta := { (sampleTask name).ObjectMeta with ResourceVersion := rv } }

/-- A stored copy of `sampleTask "foo"` that two pods own. -/
def ownedTask : TektonTask :=
  { storedTask "foo" "7" with
    ObjectMeta := { (storedTask "foo" "7").ObjectMeta with
      OwnerReferences :=
        [{ APIVersion := "v1", Kind := "Pod", Name := "a", UID := "u-1" },
         { APIVersion := "v1", Kind := "Pod", Name := "b", UID := "u-2" }] } }

/-- The task `foo` asking for a generated name `foo-`. -/
def generatedTask : TektonTask :=
  { sampleTask "foo" with
    ObjectMeta := { (sampleTask "foo").ObjectMeta with GenerateName := "foo-" } }

/-- A reference to a knative service. -/
def sampleOwner : OwnerReference :=
  { APIVersion := "serving.knative.dev/v1alpha1", Kind := "Service", Name := "svc", UID := "u-3" }

/-- A descriptor with a registry secret and a local source. -/
def localSecretDescriptor : Task :=
  { sampleDescriptor "foo" with RegistrySecret := "regcred", FromLocalSource := true }

/-- Growth by doubling: a full array of capacity `cap` is replaced by one of
capacity `2 * cap` (of capacity 1 when `cap` is 0). -/
def doubling (cap : Nat) : Nat := cap - 1

/-- A build step with the given slice headers. -/
def slicedStep (name : String) (env mounts : Slice) : SlicedStep :=
  { Name := name, Image := "kaniko", Command := ["/kaniko/executor"],
    Args := ["--destination=img"], Env := env, VolumeMounts := mounts }

/-- A task whose two steps share one `Env` array holding `HOME` and `PATH`:
the first step sees `HOME` only, the second sees both. -/
def aliasedTask : SlicedTask :=
  { envs := [[{ Name := "HOME", Value := "/root" }, { Name := "PATH", Value := "/bin" }]]
    mounts := []
    TypeMeta := (sampleTask "foo").TypeMeta
    ObjectMeta := (sampleTask "foo").ObjectMeta
    Inputs := none
    Steps := [slicedStep "fetch" ⟨0, 0, 1, 2⟩ ⟨0, 0, 0, 0⟩,
              slicedStep "build" ⟨0, 0, 2, 2⟩ ⟨0, 0, 0, 0⟩]
    Volumes := [] }

/-- A task whose two steps have an `Env` array each, the first with a spare
cell, the second full; neither has mounts. -/
def separateTask : SlicedTask :=
  { envs := [[{ Name := "HOME", Value := "/root" }, { Name := "", Value := "" }],
             [{ Name := "HOME", Value := "/root" }, { Name := "PATH", Value := "/bin" }]]
    mounts := []
    TypeMeta := (sampleTask "foo").TypeMeta
    ObjectMeta := (sampleTask "foo").ObjectMeta
    Inputs := none
    Steps := [slicedStep "fetch" ⟨0, 0, 1, 2⟩ ⟨0, 0, 0, 0⟩,
              slicedStep "build" ⟨1, 0, 2, 2⟩ ⟨0, 0, 0, 0⟩]
    Volumes := [] }

/-! ## Frame lemmas for the mutations -/

theorem setupEnv_steps (t : Task) (task : TektonTask) :
    (t.setupEnv task).Spec.Steps = task.Spec.Steps.map fun container =>
      { container with
        Env := container.Env ++ [{ Name := "DOCKER_CONFIG", Value := "/" ++ t.RegistrySecret }] } :=
  rfl

theorem setupVolume_steps (t : Task) (task : TektonTask) :
    (t.setupVolume task).Spec.Steps = task.Spec.Steps.map fun step =>
      { step with
        VolumeMounts := step.VolumeMounts ++
          [{ Name := t.RegistrySecret, MountPath := "/" ++ t.RegistrySecret,
             ReadOnly := true }] } :=
  rfl

theorem injectSecret_typeMeta (t : Task) (task : TektonTask) :
    (t.injectSecret task).TypeMeta = task.TypeMeta := by
  unfold Task.injectSecret
  split <;> rfl

theorem injectSecret_objectMeta (t : Task) (task : TektonTask) :
    (t.injectSecret task).ObjectMeta = task.ObjectMeta := by
  unfold Task.injectSecret
  split <;> rfl

theorem injectSecret_inputs (t : Task) (task : TektonTask) :
    (t.injectSecret task).Spec.Inputs = task.Spec.Inputs := by
  unfold Task.injectSecret
  split <;> rfl

theorem addSourceStep_typeMeta (t : Task) (task : TektonTask) :
    (t.addSourceStep task).TypeMeta = task.TypeMeta := by
  unfold Task.addSourceStep
  split <;> rfl

theorem addSourceStep_objectMeta (t : Task) (task : TektonTask) :
    (t.addSourceStep task).ObjectMeta = task.ObjectMeta := by
  unfold Task.addSourceStep
  split <;> rfl

theorem addSourceStep_volumes (t : Task) (task : TektonTask) :
    (t.addSourceStep task).Spec.Volumes = task.Spec.Volumes := by
  unfold Task.addSourceStep
  split <;> rfl

theorem addSourceStep_steps (t : Task) (task : TektonTask) :
    (t.addSourceStep task).Spec.Steps =
      (if t.FromLocalSource then [t.customStep] else []) ++ task.Spec.Steps := by
  unfold Task.addSourceStep
  split <;> simp

theorem setNames_spec (t : Task) (task : TektonTask) :
    (t.setNames task).Spec = task.Spec := by
  unfold Task.setNames
  simp only []
  split
  · rfl
  · split <;> rfl

theorem defaultParamTypes_steps (task : TektonTask) :
    (defaultParamTypes task).Spec.Steps = task.Spec.Steps :=
  rfl

/-- The steps after the secret block depend on the steps before it only. -/
theorem injectSecret_steps (t : Task) (task : TektonTask) :
    (t.injectSecret task).Spec.Steps =
      if t.RegistrySecret ≠ "" then (t.setupVolume (t.setupEnv task)).Spec.Steps
      else task.Spec.Steps := by
  unfold Task.injectSecret
  split <;> rfl

/-- The steps of the secret step of two objects with the same steps agree. -/
theorem injectSecret_steps_congr (t : Task) (task task₂ : TektonTask)
    (h : task.Spec.Steps = task₂.Spec.Steps) :
    (t.injectSecret task).Spec.Steps = (t.injectSecret task₂).Spec.Steps := by
  rw [injectSecret_steps, injectSecret_steps, setupVolume_steps, setupVolume_steps,
    setupEnv_steps, setupEnv_steps, h]

theorem deployMutate_steps (t : Task) (task : TektonTask) :
    (t.deployMutate task).Spec.Steps =
      (if t.FromLocalSource then [t.customStep] else []) ++ (t.injectSecret task).Spec.Steps := by
  unfold Task.deployMutate
  rw [addSourceStep_steps]
  congr 1
  apply injectSecret_steps_congr
  rw [setNames_spec]
  rfl

theorem cloneMutate_steps (t : Task) (task : TektonTask) :
    (t.cloneMutate task).Spec.Steps =
      (if t.FromLocalSource then [t.customStep] else []) ++ (t.injectSecret task).Spec.Steps := by
  unfold Task.cloneMutate
  simp only []
  rw [addSourceStep_steps]
  congr 1
  exact injectSecret_steps_congr t _ _ rfl

theorem deployMutate_objectMeta (t : Task) (task : TektonTask) :
    (t.deployMutate task).ObjectMeta = (t.setNames task).ObjectMeta := by
  unfold Task.deployMutate
  rw [addSourceStep_objectMeta, injectSecret_objectMeta]
  unfold Task.setNames
  simp only []
  split
  · rfl
  · split <;> rfl

/-- What `Deploy` does once the manifest is found locally and decoded: the
mutated object is returned in dry-run mode and handed to `CreateOrUpdate`
otherwise. -/
theorem deploy_loaded {σ : Type} (t : Task) (fs : Files) (dry : Bool) (clientset : ConfigSet σ)
    (s : σ) (yamlFile : String) (task : TektonTask)
    (hlocal : fs.IsLocal t.File = true) (hread : fs.ReadFile t.File = .ok yamlFile)
    (hdecode : fs.Unmarshal yamlFile = (task, none)) :
    t.Deploy fs dry clientset s =
      if dry then ⟨.returned (some (t.deployMutate task), none), s, []⟩
      else t.CreateOrUpdate (t.deployMutate task) clientset s := by
  have ht : ({ t with File := t.File } : Task) = t := rfl
  simp [Task.Deploy, Task.readYAML, hlocal, hread, hdecode, ht]

/-- After the secret block every step carries the credentials. -/
theorem injectSecret_steps_have_credentials (t : Task) (task : TektonTask)
    (hs : t.RegistrySecret ≠ "") :
    ∀ st ∈ (t.injectSecret task).Spec.Steps,
      (∃ e ∈ st.Env, e.Name = "DOCKER_CONFIG" ∧ e.Value = "/" ++ t.RegistrySecret) ∧
      (∃ m ∈ st.VolumeMounts, m.Name = t.RegistrySecret ∧
        m.MountPath = "/" ++ t.RegistrySecret ∧ m.ReadOnly = true) := by
  intro st hst
  rw [injectSecret_steps, if_pos hs, setupVolume_steps, setupEnv_steps, List.map_map] at hst
  obtain ⟨o, -, rfl⟩ := List.mem_map.1 hst
  exact ⟨⟨{ Name := "DOCKER_CONFIG", Value := "/" ++ t.RegistrySecret }, by simp, rfl, rfl⟩,
    ⟨{ Name := t.RegistrySecret, MountPath := "/" ++ t.RegistrySecret, ReadOnly := true },
      by simp, rfl, rfl, rfl⟩⟩

theorem injectSecret_steps_length (t : Task) (task : TektonTask) :
    (t.injectSecret task).Spec.Steps.length = task.Spec.Steps.length := by
  rw [injectSecret_steps]
  split
  · rw [setupVolume_steps, setupEnv_steps, List.length_map, List.length_map]
  · rfl

theorem injectSecret_volumes (t : Task) (task : TektonTask) (hs : t.RegistrySecret ≠ "") :
    (t.injectSecret task).Spec.Volumes =
      [{ Name := t.RegistrySecret,
         VolumeSource := { Secret := some { SecretName := t.RegistrySecret } } }] := by
  unfold Task.injectSecret
  rw [if_pos hs]
  rfl

theorem deployMutate_volumes (t : Task) (task : TektonTask) (hs : t.RegistrySecret ≠ "") :
    (t.deployMutate task).Spec.Volumes =
      [{ Name := t.RegistrySecret,
         VolumeSource := { Secret := some { SecretName := t.RegistrySecret } } }] := by
  unfold Task.deployMutate
  rw [addSourceStep_volumes, injectSecret_volumes _ _ hs]

theorem cloneMutate_volumes (t : Task) (task : TektonTask) (hs : t.RegistrySecret ≠ "") :
    (t.cloneMutate task).Spec.Volumes =
      [{ Name := t.RegistrySecret,
         VolumeSource := { Secret := some { SecretName := t.RegistrySecret } } }] := by
  unfold Task.cloneMutate
  simp only []
  rw [addSourceStep_volumes, injectSecret_volumes _ _ hs]

theorem addSourceStep_inputs (t : Task) (task : TektonTask) (hl : t.FromLocalSource = true) :
    ∀ inputs, (t.addSourceStep task).Spec.Inputs = some inputs → inputs.Resources = [] := by
  intro inputs h
  unfold Task.addSourceStep at h
  rw [if_pos hl] at h
  simp only [Option.map_eq_some'] at h
  obtain ⟨a, -, rfl⟩ := h
  rfl

theorem append_dash_ne_empty (name : String) : name ++ "-" ≠ "" := by
  intro h
  have hlen := congrArg String.length h
  rw [String.length_append] at hlen
  have h1 : "-".length = 1 := by decide
  have h0 : "".length = 0 := by decide
  omega

/-! ## Slices: what `append` does -/

theorem getD_set_self {α : Type} (h : List (List α)) (i : Nat) (v : List α) (hi : i < h.length) :
    (h.set i v).getD i [] = v := by
  simp [List.getD, hi]

theorem getD_set_other {α : Type} (h : List (List α)) (i j : Nat) (v : List α) (hij : i ≠ j) :
    (h.set i v).getD j [] = h.getD j [] := by
  simp [List.getD, List.getElem?_set, hij]

theorem getD_append_left {α : Type} (h : List (List α)) (v : List α) (j : Nat) (hj : j < h.length) :
    (h ++ [v]).getD j [] = h.getD j [] := by
  simp [List.getD, List.getElem?_append_left hj]

theorem getD_append_new {α : Type} (h : List (List α)) (v : List α) :
    (h ++ [v]).getD h.length [] = v := by
  simp [List.getD]

theorem read_length {α : Type} (h : List (List α)) (s : Slice) (hv : s.Valid h) :
    (s.read h).length = s.len := by
  unfold Slice.read
  rw [List.length_take, List.length_drop]
  obtain ⟨h1, h2⟩ := hv
  by_cases hc : 0 < s.cap
  · have := (h2 hc).2
    omega
  · omega

theorem take_succ_set {α : Type} (x : α) :
    ∀ (n : Nat) (b : List α), n < b.length → (b.set n x).take (n + 1) = b.take n ++ [x]
  | _, [], h => by simp at h
  | 0, _ :: _, _ => by simp
  | n + 1, c :: b, h => by
    have hn : n < b.length := by simpa using h
    simp [take_succ_set x n b hn]

theorem take_drop_set_outside {α : Type} (a : List α) (k off len : Nat) (x : α)
    (hk : k < off ∨ off + len ≤ k) :
    ((a.set k x).drop off).take len = (a.drop off).take len := by
  apply List.ext_getElem?
  intro i
  rw [List.getElem?_take, List.getElem?_take]
  split
  · rw [List.getElem?_drop, List.getElem?_drop, List.getElem?_set_ne (by omega)]
  · rfl

/-- The slice returned by `append` reads as the old contents followed by `x`. -/
theorem goAppend_read {α : Type} (spare : Nat → Nat) (zero : α) (h : List (List α)) (s : Slice)
    (x : α) (hv : s.Valid h) :
    (goAppend spare zero h s x).2.read (goAppend spare zero h s x).1 = s.read h ++ [x] := by
  unfold goAppend
  split
  · rename_i hlt
    obtain ⟨-, h2⟩ := hv
    obtain ⟨ha, hb⟩ := h2 (by omega)
    simp only [Slice.read]
    rw [getD_set_self _ _ _ ha, ← List.set_drop]
    apply take_succ_set
    rw [List.length_drop]
    omega
  · rename_i hge
    have hl := read_length h s hv
    simp only [Slice.read] at hl ⊢
    rw [getD_append_new, List.drop_zero, List.take_append_of_le_length
      (by rw [List.length_append, hl, List.length_singleton])]
    apply List.take_of_length_le
    rw [List.length_append, hl, List.length_singleton]

/-- Validity only looks at array sizes, which `append` never shrinks. -/
theorem goAppend_valid_mono {α : Type} (spare : Nat → Nat) (zero : α) (h : List (List α))
    (s u : Slice) (x : α) (hu : u.Valid h) : u.Valid (goAppend spare zero h s x).1 := by
  obtain ⟨h1, h2⟩ := hu
  refine ⟨h1, fun hc => ?_⟩
  obtain ⟨ha, hb⟩ := h2 hc
  unfold goAppend
  split
  · simp only [List.length_set]
    refine ⟨ha, ?_⟩
    by_cases he : s.arr = u.arr
    · rw [he, getD_set_self _ _ _ ha, List.length_set]
      exact hb
    · rw [getD_set_other _ _ _ _ he]
      exact hb
  · simp only [List.length_append, List.length_singleton]
    refine ⟨by omega, ?_⟩
    rw [getD_append_left _ _ _ ha]
    exact hb

/-- A slice apart from `s` reads the same after `append(s, x)`. -/
theorem goAppend_frame {α : Type} (spare : Nat → Nat) (zero : α) (h : List (List α))
    (s u : Slice) (x : α) (hu : u.Valid h) (hs : s.Valid h) (hd : s.Apart u) :
    u.read (goAppend spare zero h s x).1 = u.read h := by
  obtain ⟨h1, h2⟩ := hu
  by_cases hc : 0 < u.cap
  · obtain ⟨ha, hb⟩ := h2 hc
    unfold goAppend
    split
    · rename_i hlt
      simp only [Slice.read]
      by_cases he : s.arr = u.arr
      · rw [he, getD_set_self _ _ _ ha]
        apply take_drop_set_outside
        rcases hd with hd | hd | hd | hd | hd
        · omega
        · omega
        · exact absurd he hd
        · omega
        · have := hs.1
          omega
      · rw [getD_set_other _ _ _ _ he]
    · simp only [Slice.read]
      rw [getD_append_left _ _ _ ha]
  · have hl : u.len = 0 := by omega
    simp [Slice.read, hl]

/-- The slice returned by `append` is valid. -/
theorem goAppend_valid {α : Type} (spare : Nat → Nat) (zero : α) (h : List (List α))
    (s : Slice) (x : α) (hs : s.Valid h) :
    (goAppend spare zero h s x).2.Valid (goAppend spare zero h s x).1 := by
  have hl := read_length h s hs
  obtain ⟨h1, h2⟩ := hs
  unfold goAppend
  split
  · rename_i hlt
    obtain ⟨ha, hb⟩ := h2 (by omega)
    refine ⟨by simp only; omega, fun _ => ?_⟩
    simp only [List.length_set]
    refine ⟨ha, ?_⟩
    rw [getD_set_self _ _ _ ha, List.length_set]
    exact hb
  · refine ⟨by simp only; omega, fun _ => ?_⟩
    simp only [List.length_append, List.length_singleton]
    refine ⟨by omega, ?_⟩
    rw [getD_append_new]
    simp only [List.length_append, hl, List.length_singleton, List.length_replicate]
    omega

/-- The slice returned by `append` stays apart from what the old one was apart from. -/
theorem goAppend_apart {α : Type} (spare : Nat → Nat) (zero : α) (h : List (List α))
    (s u : Slice) (x : α) (hu : u.Valid h) (hd : s.Apart u) :
    (goAppend spare zero h s x).2.Apart u := by
  unfold goAppend
  split
  · exact hd
  · by_cases hc : 0 < u.cap
    · have := (hu.2 hc).1
      right; right; left
      simp only
      omega
    · right; left
      omega

theorem Slice.Apart.symm {a b : Slice} (h : a.Apart b) : b.Apart a := by
  unfold Slice.Apart at h ⊢
  omega

/-- The loop leaves alone every slice that is apart from the slices it appends to. -/
theorem appendToEach_frame {α β : Type} (spare : Nat → Nat) (zero x : α) (get : β → Slice)
    (put : β → Slice → β) (u : Slice) :
    ∀ (bs : List β) (h : List (List α)), u.Valid h → (∀ b ∈ bs, (get b).Valid h) →
      (∀ b ∈ bs, (get b).Apart u) →
      u.read (appendToEach spare zero x get put h bs).1 = u.read h
  | [], _, _, _, _ => rfl
  | b :: rest, h, hu, hv, ha => by
    have hb := hv b (List.mem_cons_self _ _)
    simp only [appendToEach]
    rw [appendToEach_frame spare zero x get put u rest _
      (goAppend_valid_mono spare zero h (get b) u x hu)
      (fun c hc => goAppend_valid_mono spare zero h (get b) (get c) x
        (hv c (List.mem_cons_of_mem _ hc)))
      (fun c hc => ha c (List.mem_cons_of_mem _ hc))]
    exact goAppend_frame spare zero h (get b) u x hu hb (ha b (List.mem_cons_self _ _))

theorem appendToEach_length {α β : Type} (spare : Nat → Nat) (zero x : α) (get : β → Slice)
    (put : β → Slice → β) :
    ∀ (bs : List β) (h : List (List α)),
      (appendToEach spare zero x get put h bs).2.length = bs.length
  | [], _ => rfl
  | b :: rest, h => by
    simp only [appendToEach, List.length_cons]
    rw [appendToEach_length spare zero x get put rest]

/-- On valid slices that are pairwise apart, the loop stores back into each
element a slice that reads as the old one followed by `x`. -/
theorem appendToEach_reads {α β : Type} (spare : Nat → Nat) (zero x : α) (get : β → Slice)
    (put : β → Slice → β) :
    ∀ (bs : List β) (h : List (List α)), (∀ b ∈ bs, (get b).Valid h) →
      bs.Pairwise (fun a b => (get a).Apart (get b)) →
      ∀ (i : Nat) (b : β), bs[i]? = some b →
        ∃ s, (appendToEach spare zero x get put h bs).2[i]? = some (put b s) ∧
          s.read (appendToEach spare zero x get put h bs).1 = (get b).read h ++ [x]
  | [], _, _, _, i, b, hi => by simp at hi
  | c :: rest, h, hv, hp, i, b, hi => by
    have hc := hv c (List.mem_cons_self _ _)
    have hrest : ∀ d ∈ rest, (get d).Valid (goAppend spare zero h (get c) x).1 :=
      fun d hd => goAppend_valid_mono spare zero h (get c) (get d) x
        (hv d (List.mem_cons_of_mem _ hd))
    obtain ⟨hhead, htail⟩ := List.pairwise_cons.1 hp
    cases i with
    | zero =>
      simp only [List.getElem?_cons_zero, Option.some.injEq] at hi
      subst hi
      refine ⟨(goAppend spare zero h (get c) x).2, by simp [appendToEach], ?_⟩
      simp only [appendToEach]
      rw [appendToEach_frame spare zero x get put _ rest _
        (goAppend_valid spare zero h (get c) x hc) hrest
        (fun d hd => (goAppend_apart spare zero h (get c) (get d) x
          (hv d (List.mem_cons_of_mem _ hd)) (hhead d hd)).symm)]
      exact goAppend_read spare zero h (get c) x hc
    | succ j =>
      simp only [List.getElem?_cons_succ] at hi
      obtain ⟨s, hs1, hs2⟩ := appendToEach_reads spare zero x get put rest _ hrest htail j b hi
      refine ⟨s, by simpa [appendToEach] using hs1, ?_⟩
      simp only [appendToEach]
      rw [hs2, goAppend_frame spare zero h (get c) (get b) x
        (hv b (List.mem_cons_of_mem _ (List.getElem?_mem hi))) hc
        (hhead b (List.getElem?_mem hi))]

/-- The loop changes nothing that `put` does not change. -/
theorem appendToEach_map {α β γ : Type} (spare : Nat → Nat) (zero x : α) (get : β → Slice)
    (put : β → Slice → β) (f : β → γ) (hf : ∀ b s, f (put b s) = f b) :
    ∀ (bs : List β) (h : List (List α)),
      (appendToEach spare zero x get put h bs).2.map f = bs.map f
  | [], _ => rfl
  | b :: rest, h => by
    simp only [appendToEach, List.map_cons, hf]
    rw [appendToEach_map spare zero x get put f hf rest]

/-- What `setupEnv` followed by `setupVolume` does to the steps, on slices that
are pairwise apart. -/
theorem setup_sliced_steps (t : Task) (spare : Nat → Nat) (task : SlicedTask)
    (hve : ∀ st ∈ task.Steps, st.Env.Valid task.envs)
    (hae : task.Steps.Pairwise fun a b => a.Env.Apart b.Env)
    (hvm : ∀ st ∈ task.Steps, st.VolumeMounts.Valid task.mounts)
    (ham : task.Steps.Pairwise fun a b => a.VolumeMounts.Apart b.VolumeMounts) :
    (t.setupVolumeSliced spare (t.setupEnvSliced spare task)).Steps.length =
        task.Steps.length ∧
      ∀ (i : Nat) (o : SlicedStep), task.Steps[i]? = some o →
        ∃ st, (t.setupVolumeSliced spare (t.setupEnvSliced spare task)).Steps[i]? = some st ∧
          st.Name = o.Name ∧ st.Image = o.Image ∧ st.Command = o.Command ∧ st.Args = o.Args ∧
          st.Env.read (t.setupVolumeSliced spare (t.setupEnvSliced spare task)).envs =
            o.Env.read task.envs ++
              [{ Name := "DOCKER_CONFIG", Value := "/" ++ t.RegistrySecret }] ∧
          st.VolumeMounts.read (t.setupVolumeSliced spare (t.setupEnvSliced spare task)).mounts =
            o.VolumeMounts.read task.mounts ++
              [{ Name := t.RegistrySecret, MountPath := "/" ++ t.RegistrySecret,
                 ReadOnly := true }] := by
  have hmap := appendToEach_map spare { Name := "", Value := "" }
    { Name := "DOCKER_CONFIG", Value := "/" ++ t.RegistrySecret }
    (fun container : SlicedStep => container.Env)
    (fun container envs => { container with Env := envs })
    (fun st : SlicedStep => st.VolumeMounts) (fun _ _ => rfl) task.Steps task.envs
  have hvm1 : ∀ st ∈ (t.setupEnvSliced spare task).Steps,
      st.VolumeMounts.Valid (t.setupEnvSliced spare task).mounts := by
    intro st hst
    have hmem : st.VolumeMounts ∈ task.Steps.map fun st => st.VolumeMounts := by
      rw [← hmap]
      exact List.mem_map_of_mem _ hst
    obtain ⟨o, ho, heq⟩ := List.mem_map.1 hmem
    rw [← heq]
    exact hvm o ho
  have ham1 : (t.setupEnvSliced spare task).Steps.Pairwise
      fun a b => a.VolumeMounts.Apart b.VolumeMounts := by
    have hp : (task.Steps.map fun st => st.VolumeMounts).Pairwise Slice.Apart :=
      (List.pairwise_map).2 ham
    rw [← hmap] at hp
    exact (List.pairwise_map).1 hp
  refine ⟨?_, fun i o hi => ?_⟩
  · simp only [Task.setupVolumeSliced, Task.setupEnvSliced, appendToEach_length]
  · obtain ⟨s1, hs1, hr1⟩ := appendToEach_reads spare { Name := "", Value := "" }
      { Name := "DOCKER_CONFIG", Value := "/" ++ t.RegistrySecret }
      (fun container : SlicedStep => container.Env)
      (fun container envs => { container with Env := envs })
      task.Steps task.envs hve hae i o hi
    obtain ⟨s2, hs2, hr2⟩ := appendToEach_reads spare
      { Name := "", MountPath := "", ReadOnly := false }
      { Name := t.RegistrySecret, MountPath := "/" ++ t.RegistrySecret, ReadOnly := true }
      (fun step : SlicedStep => step.VolumeMounts)
      (fun step mounts => { step with VolumeMounts := mounts })
      (t.setupEnvSliced spare task).Steps (t.setupEnvSliced spare task).mounts hvm1 ham1 i _ hs1
    exact ⟨_, hs2, rfl, rfl, rfl, rfl, hr1, hr2⟩

/-- On slices that are pairwise apart, the list versions of `setupEnv` and
`setupVolume` compute what the code does. -/
theorem sliced_view_setup (t : Task) (spare : Nat → Nat) (task : SlicedTask)
    (hve : ∀ st ∈ task.Steps, st.Env.Valid task.envs)
    (hae : task.Steps.Pairwise fun a b => a.Env.Apart b.Env)
    (hvm : ∀ st ∈ task.Steps, st.VolumeMounts.Valid task.mounts)
    (ham : task.Steps.Pairwise fun a b => a.VolumeMounts.Apart b.VolumeMounts) :
    (t.setupVolumeSliced spare (t.setupEnvSliced spare task)).view =
      t.setupVolume (t.setupEnv task.view) := by
  obtain ⟨hlen, hsteps⟩ := setup_sliced_steps t spare task hve hae hvm ham
  have hS : (t.setupVolumeSliced spare (t.setupEnvSliced spare task)).view.Spec.Steps =
      (t.setupVolume (t.setupEnv task.view)).Spec.Steps := by
    apply List.ext_getElem?
    intro i
    rw [setupVolume_steps, setupEnv_steps, List.map_map]
    simp only [SlicedTask.view, List.getElem?_map]
    cases hi : task.Steps[i]? with
    | none =>
      have hnone : (t.setupVolumeSliced spare (t.setupEnvSliced spare task)).Steps[i]? = none := by
        rw [List.getElem?_eq_none_iff] at hi ⊢
        omega
      rw [hnone]
      rfl
    | some o =>
      obtain ⟨st, hst, h1, h2, h3, h4, h5, h6⟩ := hsteps i o hi
      rw [hst]
      simp [h1, h2, h3, h4, h5, h6]
  have hrest : ∀ a b : TektonTask, a.TypeMeta = b.TypeMeta → a.ObjectMeta = b.ObjectMeta →
      a.Spec.Inputs = b.Spec.Inputs → a.Spec.Volumes = b.Spec.Volumes →
      a.Spec.Steps = b.Spec.Steps → a = b := by
    rintro ⟨_, _, ⟨_, _, _⟩⟩ ⟨_, _, ⟨_, _, _⟩⟩ h1 h2 h3 h4 h5
    simp only at h1 h2 h3 h4 h5
    subst h1 h2 h3 h4 h5
    rfl
  exact hrest _ _ rfl rfl rfl rfl hS

/-! ## The reconciler -/

/-- C1: for a Task object of kind "Task" and apiVersion "tekton.dev/v1alpha1"
with an empty generateName, when the create call fails with AlreadyExists and
the get that follows succeeds with `fetched`, `CreateOrUpdate` issues one
create, then one get by the object's name, then one update whose argument is
the local object with its resourceVersion set to that of `fetched`, and it
returns what the update call returned. -/
theorem createOrUpdate_exists_updates {σ : Type} (t : Task) (task fetched : TektonTask)
    (clientset : ConfigSet σ) (s s₁ s₂ : σ) (r : Reply)
    (hk : task.TypeMeta.Kind = "Task")
    (ha : task.TypeMeta.APIVersion = "tekton.dev/v1alpha1")
    (hg : task.ObjectMeta.GenerateName = "")
    (hcreate : clientset.Create s t.Namespace task = (r, s₁))
    (hexists : IsAlreadyExists r.err = true)
    (hget : clientset.Get s₁ t.Namespace task.ObjectMeta.Name = (⟨some fetched, none⟩, s₂)) :
    (t.CreateOrUpdate task clientset s).calls =
        [Call.create t.Namespace task,
         Call.get t.Namespace task.ObjectMeta.Name,
         Call.update t.Namespace
           { task with ObjectMeta := { task.ObjectMeta with
               ResourceVersion := fetched.ObjectMeta.ResourceVersion } }] ∧
      (t.CreateOrUpdate task clientset s).out =
        Outcome.returned
          ((clientset.Update s₂ t.Namespace
              { task with ObjectMeta := { task.ObjectMeta with
                  ResourceVersion := fetched.ObjectMeta.ResourceVersion } }).1.obj,
           (clientset.Update s₂ t.Namespace
              { task with ObjectMeta := { task.ObjectMeta with
                  ResourceVersion := fetched.ObjectMeta.ResourceVersion } }).1.err) ∧
      (t.CreateOrUpdate task clientset s).state =
        (clientset.Update s₂ t.Namespace
            { task with ObjectMeta := { task.ObjectMeta with
                ResourceVersion := fetched.ObjectMeta.ResourceVersion } }).2 := by
  simp [Task.CreateOrUpdate, kind, api, hk, ha, hg, hcreate, hexists, hget]

/-- C2: for a Task object with valid kind and apiVersion and an empty
generateName, when the create call does not fail with AlreadyExists,
`CreateOrUpdate` issues that one create call and nothing else, and returns the
create call's object and error as they are. -/
theorem createOrUpdate_create_only {σ : Type} (t : Task) (task : TektonTask)
    (clientset : ConfigSet σ) (s s₁ : σ) (r : Reply)
    (hk : task.TypeMeta.Kind = "Task")
    (ha : task.TypeMeta.APIVersion = "tekton.dev/v1alpha1")
    (hg : task.ObjectMeta.GenerateName = "")
    (hcreate : clientset.Create s t.Namespace task = (r, s₁))
    (hother : IsAlreadyExists r.err = false) :
    (t.CreateOrUpdate task clientset s).calls = [Call.create t.Namespace task] ∧
      (t.CreateOrUpdate task clientset s).out = Outcome.returned (r.obj, r.err) ∧
      (t.CreateOrUpdate task clientset s).state = s₁ := by
  simp [Task.CreateOrUpdate, kind, api, hk, ha, hg, hcreate, hother]

/-- The generated-name branch of `CreateOrUpdate`: one create, returned as is. -/
theorem generated_name_branch {σ : Type} (t : Task) (task : TektonTask)
    (clientset : ConfigSet σ) (s : σ)
    (hk : task.TypeMeta.Kind = "Task")
    (ha : task.TypeMeta.APIVersion = "tekton.dev/v1alpha1")
    (hg : task.ObjectMeta.GenerateName ≠ "") :
    (t.CreateOrUpdate task clientset s).calls = [Call.create t.Namespace task] ∧
      (t.CreateOrUpdate task clientset s).out =
        Outcome.returned ((clientset.Create s t.Namespace task).1.obj,
                          (clientset.Create s t.Namespace task).1.err) := by
  simp [Task.CreateOrUpdate, kind, api, hk, ha, hg]

/-- C3: for a Task object with valid kind and apiVersion and a non-empty
generateName, `CreateOrUpdate` issues one create call and nothing else, and
returns that call's object and error, whatever they are and whatever the
object's name is. -/
theorem createOrUpdate_generateName {σ : Type} (t : Task) (task : TektonTask)
    (clientset : ConfigSet σ) (s : σ)
    (hk : task.TypeMeta.Kind = "Task")
    (ha : task.TypeMeta.APIVersion = "tekton.dev/v1alpha1")
    (hg : task.ObjectMeta.GenerateName ≠ "") :
    (t.CreateOrUpdate task clientset s).calls = [Call.create t.Namespace task] ∧
      (t.CreateOrUpdate task clientset s).out =
        Outcome.returned ((clientset.Create s t.Namespace task).1.obj,
                          (clientset.Create s t.Namespace task).1.err) ∧
      (t.CreateOrUpdate task clientset s).state = (clientset.Create s t.Namespace task).2 := by
  simp [Task.CreateOrUpdate, kind, api, hk, ha, hg]

/-- C4: a Task object whose kind is not "Task" or whose apiVersion is not
"tekton.dev/v1alpha1" makes `CreateOrUpdate` return no object and a mismatch
error carrying the value found and the value wanted, without any client call;
an object with both values right passes the check, its first call being the
create of that object. -/
theorem createOrUpdate_schema_check {σ : Type} (t : Task) (task : TektonTask)
    (clientset : ConfigSet σ) (s : σ) :
    ((task.TypeMeta.Kind ≠ "Task" ∨ task.TypeMeta.APIVersion ≠ "tekton.dev/v1alpha1") →
        (t.CreateOrUpdate task clientset s).calls = [] ∧
        (t.CreateOrUpdate task clientset s).state = s ∧
        ((t.CreateOrUpdate task clientset s).out =
            Outcome.returned (none, some (Error.kindMismatch task.TypeMeta.Kind "Task")) ∨
         (t.CreateOrUpdate task clientset s).out =
            Outcome.returned
              (none, some (Error.apiMismatch task.TypeMeta.APIVersion "tekton.dev/v1alpha1")))) ∧
      ((task.TypeMeta.Kind = "Task" ∧ task.TypeMeta.APIVersion = "tekton.dev/v1alpha1") →
        (t.CreateOrUpdate task clientset s).calls.head? =
          some (Call.create t.Namespace task)) := by
  refine ⟨fun h => ?_, fun h => ?_⟩
  · by_cases hk : task.TypeMeta.Kind = "Task"
    · have ha : task.TypeMeta.APIVersion ≠ "tekton.dev/v1alpha1" := by
        rcases h with h | h
        · exact absurd hk h
        · exact h
      simp [Task.CreateOrUpdate, kind, api, hk, ha]
    · simp [Task.CreateOrUpdate, kind, hk]
  · obtain ⟨hk, ha⟩ := h
    by_cases hg : task.ObjectMeta.GenerateName = ""
    · cases hx : IsAlreadyExists (clientset.Create s t.Namespace task).1.err
      · simp [Task.CreateOrUpdate, kind, api, hk, ha, hg, hx]
      · simp only [Task.CreateOrUpdate, kind, api, hk, ha, hg, hx, ne_eq, not_true_eq_false,
          if_false, if_true]
        split <;> simp
    · simp [Task.CreateOrUpdate, kind, api, hk, ha, hg]

/-- Witness for C1: `foo` is already stored with resource version "7". -/
theorem createOrUpdate_exists_updates_witness :
    ((sampleDescriptor "foo").CreateOrUpdate (sampleTask "foo") memClient
        [storedTask "foo" "7"]).calls =
      [Call.create "default" (sampleTask "foo"), Call.get "default" "foo",
       Call.update "default" (storedTask "foo" "7")] ∧
    ((sampleDescriptor "foo").CreateOrUpdate (sampleTask "foo") memClient
        [storedTask "foo" "7"]).out =
      Outcome.returned (some (storedTask "foo" "7"), none) :=
  have h := createOrUpdate_exists_updates (sampleDescriptor "foo") (sampleTask "foo")
    (storedTask "foo" "7") memClient [storedTask "foo" "7"] [storedTask "foo" "7"]
    [storedTask "foo" "7"] ⟨none, some (.status "AlreadyExists" "foo")⟩
    rfl rfl rfl (by decide) (by decide) (by decide)
  ⟨h.1, h.2.1.trans (by decide)⟩

/-- Witness for C2: nothing is stored yet, the create succeeds. -/
theorem createOrUpdate_create_only_witness :
    ((sampleDescriptor "foo").CreateOrUpdate (sampleTask "foo") memClient []).calls =
      [Call.create "default" (sampleTask "foo")] ∧
    ((sampleDescriptor "foo").CreateOrUpdate (sampleTask "foo") memClient []).out =
      Outcome.returned (some (sampleTask "foo"), none) ∧
    ((sampleDescriptor "foo").CreateOrUpdate (sampleTask "foo") memClient []).state =
      [sampleTask "foo"] :=
  createOrUpdate_create_only (sampleDescriptor "foo") (sampleTask "foo") memClient []
    [sampleTask "foo"] ⟨some (sampleTask "foo"), none⟩ rfl rfl rfl (by decide) (by decide)

/-- Witness for C3: the object asks for a generated name and also carries the
name `foo`; the cluster answers AlreadyExists, which is returned as it is after
the single create. -/
theorem createOrUpdate_generateName_witness :
    ((sampleDescriptor "foo").CreateOrUpdate generatedTask rejectingClient ()).calls =
      [Call.create "default" generatedTask] ∧
    ((sampleDescriptor "foo").CreateOrUpdate generatedTask rejectingClient ()).out =
      Outcome.returned (none, some (Error.status "AlreadyExists" "foo")) :=
  have h := createOrUpdate_generateName (sampleDescriptor "foo") generatedTask
    rejectingClient () rfl rfl (by decide)
  ⟨h.1, h.2.1⟩

/-- Witness for C4: an object of kind `Pod` is turned down without a call, and
`sampleTask "foo"` passes the check. -/
theorem createOrUpdate_schema_check_witness :
    ((sampleDescriptor "foo").CreateOrUpdate
        { sampleTask "foo" with TypeMeta := { Kind := "Pod", APIVersion := "v1" } }
        memClient []).calls = [] ∧
    ((sampleDescriptor "foo").CreateOrUpdate (sampleTask "foo") memClient []).calls.head? =
      some (Call.create "default" (sampleTask "foo")) :=
  ⟨((createOrUpdate_schema_check (sampleDescriptor "foo")
      { sampleTask "foo" with TypeMeta := { Kind := "Pod", APIVersion := "v1" } }
      memClient []).1 (Or.inl (by decide))).1,
   (createOrUpdate_schema_check (sampleDescriptor "foo") (sampleTask "foo")
      memClient []).2 ⟨rfl, rfl⟩⟩

/-! ## The owner linker -/

/-- C7: when the get call succeeds with `fetched`, `SetOwner` issues, after that
get, exactly one update call, whose argument is `fetched` with its
owner-reference list replaced by `[owner]` and every other field as fetched,
and it returns the error of that update call. -/
theorem setOwner_replaces_owners {σ : Type} (t : Task) (clientset : ConfigSet σ)
    (owner : OwnerReference) (fetched : TektonTask) (s s₁ : σ)
    (hget : clientset.Get s t.Namespace t.Name = (⟨some fetched, none⟩, s₁)) :
    (t.SetOwner clientset owner s).calls =
        [Call.get t.Namespace t.Name,
         Call.update t.Namespace
           { TypeMeta := fetched.TypeMeta
             ObjectMeta :=
               { Name := fetched.ObjectMeta.Name
                 GenerateName := fetched.ObjectMeta.GenerateName
                 Namespace := fetched.ObjectMeta.Namespace
                 ResourceVersion := fetched.ObjectMeta.ResourceVersion
                 OwnerReferences := [owner] }
             Spec := fetched.Spec }] ∧
      (t.SetOwner clientset owner s).out =
        Outcome.returned
          (clientset.Update s₁ t.Namespace
            { fetched with
              ObjectMeta := { fetched.ObjectMeta with OwnerReferences := [owner] } }).1.err ∧
      (t.SetOwner clientset owner s).state =
        (clientset.Update s₁ t.Namespace
          { fetched with
            ObjectMeta := { fetched.ObjectMeta with OwnerReferences := [owner] } }).2 := by
  simp [Task.SetOwner, hget]

/-- Witness for C7: the stored task already has two owners; both are dropped. -/
theorem setOwner_replaces_owners_witness :
    ((sampleDescriptor "foo").SetOwner memClient sampleOwner [ownedTask]).calls =
      [Call.get "default" "foo",
       Call.update "default"
        { storedTask "foo" "7" with
          ObjectMeta := { (storedTask "foo" "7").ObjectMeta with
            OwnerReferences := [sampleOwner] } }] :=
  (setOwner_replaces_owners (sampleDescriptor "foo") memClient sampleOwner ownedTask
    [ownedTask] [ownedTask] (by decide)).1

/-! ## Clone -/

/-- C8: outside dry-run mode, `Clone` of any task object issues exactly one
create call and no other call, and returns what that call returned, so the
kind and apiVersion check of `CreateOrUpdate` never turns the clone down. The
object submitted has an empty name, the original name followed by "-" as
generateName, an empty resourceVersion, kind "Task" and apiVersion
"tekton.dev/v1alpha1"; a template named `builder` is created with generateName
`builder-`. -/
theorem clone_creates_generated {σ : Type} (t : Task) (task : TektonTask)
    (clientset : ConfigSet σ) (s : σ) :
    (t.Clone false clientset task s).calls = [Call.create t.Namespace (t.cloneMutate task)] ∧
      (t.Clone false clientset task s).out =
        Outcome.returned ((clientset.Create s t.Namespace (t.cloneMutate task)).1.obj,
                          (clientset.Create s t.Namespace (t.cloneMutate task)).1.err) ∧
      (t.cloneMutate task).ObjectMeta.Name = "" ∧
      (t.cloneMutate task).ObjectMeta.GenerateName = task.ObjectMeta.Name ++ "-" ∧
      (t.cloneMutate task).ObjectMeta.ResourceVersion = "" ∧
      (t.cloneMutate task).TypeMeta.Kind = "Task" ∧
      (t.cloneMutate task).TypeMeta.APIVersion = "tekton.dev/v1alpha1" ∧
      (t.cloneMutate (sampleTask "builder")).ObjectMeta.GenerateName = "builder-" := by
  have hmeta : ∀ task : TektonTask, (t.cloneMutate task).ObjectMeta =
      { task.ObjectMeta with
        Name := "", GenerateName := task.ObjectMeta.Name ++ "-", ResourceVersion := "" } := by
    intro task
    unfold Task.cloneMutate
    simp only []
    rw [addSourceStep_objectMeta, injectSecret_objectMeta]
  have htype : (t.cloneMutate task).TypeMeta =
      { Kind := "Task", APIVersion := "tekton.dev/v1alpha1" } := by
    unfold Task.cloneMutate
    simp only []
    rw [addSourceStep_typeMeta, injectSecret_typeMeta]
    rfl
  have hg : (t.cloneMutate task).ObjectMeta.GenerateName ≠ "" := by
    rw [hmeta]
    exact append_dash_ne_empty _
  have hrun := generated_name_branch t (t.cloneMutate task) clientset s
    (by rw [htype]) (by rw [htype]) hg
  refine ⟨?_, ?_, ?_, ?_, ?_, ?_, ?_, ?_⟩
  · simpa [Task.Clone] using hrun.1
  · simpa [Task.Clone] using hrun.2
  · rw [hmeta]
  · rw [hmeta]
  · rw [hmeta]
  · rw [htype]
  · rw [htype]
  · rw [hmeta]
    decide

/-! ## The mutation sequence -/

/-- C5, as stated, fails: with a registry secret and a local source, the first
step of the object `Deploy` builds (and of the one `Clone` builds) is the
upload-wait step, which has no `DOCKER_CONFIG` variable and no mount. -/
theorem secret_on_every_step_fails :
    localSecretDescriptor.RegistrySecret ≠ "" ∧
    0 < (sampleTask "foo").Spec.Steps.length ∧
    ¬ (∀ st ∈ (localSecretDescriptor.deployMutate (sampleTask "foo")).Spec.Steps,
        (∃ e ∈ st.Env, e.Name = "DOCKER_CONFIG" ∧
          e.Value = "/" ++ localSecretDescriptor.RegistrySecret) ∧
        (∃ m ∈ st.VolumeMounts, m.Name = localSecretDescriptor.RegistrySecret ∧
          m.MountPath = "/" ++ localSecretDescriptor.RegistrySecret ∧ m.ReadOnly = true)) ∧
    ¬ (∀ st ∈ (localSecretDescriptor.cloneMutate (sampleTask "foo")).Spec.Steps,
        (∃ e ∈ st.Env, e.Name = "DOCKER_CONFIG" ∧
          e.Value = "/" ++ localSecretDescriptor.RegistrySecret) ∧
        (∃ m ∈ st.VolumeMounts, m.Name = localSecretDescriptor.RegistrySecret ∧
          m.MountPath = "/" ++ localSecretDescriptor.RegistrySecret ∧ m.ReadOnly = true)) := by
  decide

/-- C5, amended: with a non-empty RegistrySecret, the steps of the object that
`Deploy` (and `Clone`) builds are the upload-wait step, when FromLocalSource is
set, followed by as many steps as the task had; each of these has a variable
`DOCKER_CONFIG` with value "/" + RegistrySecret and a read-only mount named
RegistrySecret at "/" + RegistrySecret, and the volume list holds exactly one
volume named RegistrySecret. -/
theorem secret_on_task_steps (t : Task) (task : TektonTask) (hs : t.RegistrySecret ≠ "") :
    ∀ r, r = t.deployMutate task ∨ r = t.cloneMutate task →
      (∃ rest, r.Spec.Steps = (if t.FromLocalSource then [t.customStep] else []) ++ rest ∧
        rest.length = task.Spec.Steps.length ∧
        ∀ st ∈ rest,
          (∃ e ∈ st.Env, e.Name = "DOCKER_CONFIG" ∧ e.Value = "/" ++ t.RegistrySecret) ∧
          (∃ m ∈ st.VolumeMounts, m.Name = t.RegistrySecret ∧
            m.MountPath = "/" ++ t.RegistrySecret ∧ m.ReadOnly = true)) ∧
      r.Spec.Volumes.countP (fun v => v.Name = t.RegistrySecret) = 1 := by
  intro r hr
  have hsteps : r.Spec.Steps =
      (if t.FromLocalSource then [t.customStep] else []) ++ (t.injectSecret task).Spec.Steps := by
    rcases hr with rfl | rfl
    · exact deployMutate_steps t task
    · exact cloneMutate_steps t task
  have hvol : r.Spec.Volumes =
      [{ Name := t.RegistrySecret,
         VolumeSource := { Secret := some { SecretName := t.RegistrySecret } } }] := by
    rcases hr with rfl | rfl
    · exact deployMutate_volumes t task hs
    · exact cloneMutate_volumes t task hs
  refine ⟨⟨_, hsteps, injectSecret_steps_length t task,
    injectSecret_steps_have_credentials t task hs⟩, ?_⟩
  rw [hvol]
  simp

/-- Witness for C5, amended: secret `regcred`, local source, one build step. -/
theorem secret_on_task_steps_witness :
    (∃ rest, (localSecretDescriptor.deployMutate (sampleTask "foo")).Spec.Steps =
        (if localSecretDescriptor.FromLocalSource then [localSecretDescriptor.customStep]
          else []) ++ rest ∧
      rest.length = (sampleTask "foo").Spec.Steps.length ∧
      ∀ st ∈ rest,
        (∃ e ∈ st.Env, e.Name = "DOCKER_CONFIG" ∧
          e.Value = "/" ++ localSecretDescriptor.RegistrySecret) ∧
        (∃ m ∈ st.VolumeMounts, m.Name = localSecretDescriptor.RegistrySecret ∧
          m.MountPath = "/" ++ localSecretDescriptor.RegistrySecret ∧ m.ReadOnly = true)) ∧
    (localSecretDescriptor.deployMutate (sampleTask "foo")).Spec.Volumes.countP
      (fun v => v.Name = localSecretDescriptor.RegistrySecret) = 1 :=
  secret_on_task_steps localSecretDescriptor (sampleTask "foo") (by decide) _ (Or.inl rfl)

/-- C6: with FromLocalSource set, the object that `Deploy` (and `Clone`) builds
has the step of `customStep` (named "sources-receiver", image "busybox", a
shell loop waiting for ".uploadIsDone") first, followed by the steps that were
there before the prepending, in their order: the task's own steps when there is
no registry secret, those steps with the credentials added otherwise. The step
count grows by one, and the declared input resources are empty. -/
theorem local_source_prepends_step (t : Task) (task : TektonTask)
    (hl : t.FromLocalSource = true) :
    (∀ r, r = t.deployMutate task ∨ r = t.cloneMutate task →
      r.Spec.Steps = t.customStep ::
        (if t.RegistrySecret ≠ "" then (t.setupVolume (t.setupEnv task)).Spec.Steps
          else task.Spec.Steps) ∧
      r.Spec.Steps.length = task.Spec.Steps.length + 1 ∧
      r.Spec.Steps.map (fun st => st.Name) =
        "sources-receiver" :: task.Spec.Steps.map (fun st => st.Name) ∧
      ∀ inputs, r.Spec.Inputs = some inputs → inputs.Resources = []) ∧
    t.customStep.Name = "sources-receiver" ∧ t.customStep.Image = "busybox" ∧
    t.customStep.Command = ["sh"] ∧
    ∃ rest, t.customStep.Args =
      ["-c", "\n\t\t\t\twhile [ ! -f .uploadIsDone ]; do \n" ++ rest] := by
  refine ⟨?_, rfl, rfl, rfl, _, by
    simp only [Task.customStep, uploadDoneTrigger, String.append_assoc]
    rfl⟩
  intro r hr
  have hsteps : r.Spec.Steps = t.customStep :: (t.injectSecret task).Spec.Steps := by
    rcases hr with rfl | rfl
    · rw [deployMutate_steps, if_pos hl]
      rfl
    · rw [cloneMutate_steps, if_pos hl]
      rfl
  have hin : ∀ inputs, r.Spec.Inputs = some inputs → inputs.Resources = [] := by
    rcases hr with rfl | rfl
    · exact addSourceStep_inputs t _ hl
    · exact addSourceStep_inputs t _ hl
  refine ⟨?_, ?_, ?_, hin⟩
  · rw [hsteps, injectSecret_steps]
  · rw [hsteps, List.length_cons, injectSecret_steps_length]
  · rw [hsteps, injectSecret_steps, List.map_cons]
    congr 1
    split
    · rw [setupVolume_steps, setupEnv_steps, List.map_map, List.map_map]
      rfl
    · rfl

/-- Witness for C6: local source, no registry secret. -/
theorem local_source_prepends_step_witness :
    ({ sampleDescriptor "foo" with FromLocalSource := true }.deployMutate
        (sampleTask "foo")).Spec.Steps =
      { sampleDescriptor "foo" with FromLocalSource := true }.customStep ::
        (sampleTask "foo").Spec.Steps :=
  ((local_source_prepends_step { sampleDescriptor "foo" with FromLocalSource := true }
    (sampleTask "foo") rfl).1 _ (Or.inl rfl)).1

/-- C9, as stated, fails: with no GenerateName and no Name in the descriptor,
the object keeps the name of the manifest, `foo`, which is not the descriptor's
(empty) Name. -/
theorem deploy_name_not_descriptor_name :
    (sampleDescriptor "").GenerateName = "" ∧
    ((sampleDescriptor "").deployMutate (sampleTask "foo")).ObjectMeta.Name = "foo" ∧
    ¬ (((sampleDescriptor "").deployMutate (sampleTask "foo")).ObjectMeta.Name =
        (sampleDescriptor "").Name) := by
  decide

/-- C9, amended: the object `Deploy` builds from a loaded manifest has the
descriptor's Namespace. With a non-empty GenerateName in the descriptor its
name is empty and its generateName is the descriptor's. With an empty
GenerateName its name is the descriptor's Name when that is non-empty, and the
manifest's name when the descriptor's Name is empty too. -/
theorem deploy_names (t : Task) (task : TektonTask) :
    (t.deployMutate task).ObjectMeta.Namespace = t.Namespace ∧
      (t.GenerateName ≠ "" →
        (t.deployMutate task).ObjectMeta.Name = "" ∧
        (t.deployMutate task).ObjectMeta.GenerateName = t.GenerateName) ∧
      (t.GenerateName = "" → t.Name ≠ "" →
        (t.deployMutate task).ObjectMeta.Name = t.Name) ∧
      (t.GenerateName = "" → t.Name = "" →
        (t.deployMutate task).ObjectMeta.Name = task.ObjectMeta.Name) := by
  rw [deployMutate_objectMeta]
  refine ⟨?_, fun hg => ?_, fun hg hn => ?_, fun hg hn => ?_⟩
  · unfold Task.setNames
    simp only []
    split
    · rfl
    · split <;> rfl
  · simp [Task.setNames, hg]
  · simp [Task.setNames, hg, hn]
  · simp [Task.setNames, hg, hn]

/-- Witness for C9, amended: a generated name, an exact name, and no name. -/
theorem deploy_names_witness :
    (({ sampleDescriptor "bar" with GenerateName := "run-" }.deployMutate
        (sampleTask "foo")).ObjectMeta.Name = "" ∧
      ({ sampleDescriptor "bar" with GenerateName := "run-" }.deployMutate
        (sampleTask "foo")).ObjectMeta.GenerateName = "run-") ∧
    ((sampleDescriptor "bar").deployMutate (sampleTask "foo")).ObjectMeta.Name = "bar" ∧
    ((sampleDescriptor "").deployMutate (sampleTask "foo")).ObjectMeta.Name = "foo" :=
  ⟨(deploy_names { sampleDescriptor "bar" with GenerateName := "run-" }
      (sampleTask "foo")).2.1 (by decide),
   (deploy_names (sampleDescriptor "bar") (sampleTask "foo")).2.2.1 rfl (by decide),
   (deploy_names (sampleDescriptor "") (sampleTask "foo")).2.2.2 rfl rfl⟩

/-! ## Credential injection on slices -/

/-- C10, as stated, fails: on `aliasedTask`, whose steps hold valid slices of one
`Env` array, the `append` for the first step overwrites the second entry `PATH` of the
second step, whose environment ends as `HOME`, `DOCKER_CONFIG`,
`DOCKER_CONFIG`, which is not its original list followed by one entry. -/
theorem shared_env_array_overwritten :
    (∀ st ∈ aliasedTask.Steps, st.Env.Valid aliasedTask.envs) ∧
    (aliasedTask.Steps.map fun st => st.Env.read aliasedTask.envs)[1]? =
      some [{ Name := "HOME", Value := "/root" }, { Name := "PATH", Value := "/bin" }] ∧
    ((localSecretDescriptor.setupVolumeSliced doubling
        (localSecretDescriptor.setupEnvSliced doubling aliasedTask)).view.Spec.Steps.map
          fun st => st.Env)[1]? =
      some [{ Name := "HOME", Value := "/root" },
            { Name := "DOCKER_CONFIG", Value := "/regcred" },
            { Name := "DOCKER_CONFIG", Value := "/regcred" }] ∧
    ¬ ∃ e : EnvVar,
      ((localSecretDescriptor.setupVolumeSliced doubling
          (localSecretDescriptor.setupEnvSliced doubling aliasedTask)).view.Spec.Steps.map
            fun st => st.Env)[1]? =
        ((aliasedTask.Steps.map fun st => st.Env.read aliasedTask.envs)[1]?).map
          fun env => env ++ [e] := by
  refine ⟨by decide, by decide, by decide, ?_⟩
  rintro ⟨e, he⟩
  have h1 : ((localSecretDescriptor.setupVolumeSliced doubling
      (localSecretDescriptor.setupEnvSliced doubling aliasedTask)).view.Spec.Steps.map
        fun st => st.Env)[1]? =
      some [{ Name := "HOME", Value := "/root" },
            { Name := "DOCKER_CONFIG", Value := "/regcred" },
            { Name := "DOCKER_CONFIG", Value := "/regcred" }] := by decide
  have h2 : (aliasedTask.Steps.map fun st => st.Env.read aliasedTask.envs)[1]? =
      some [{ Name := "HOME", Value := "/root" }, { Name := "PATH", Value := "/bin" }] := by
    decide
  rw [h1, h2] at he
  simp at he

/-- C10, amended: on a task object whose steps hold `Env` slices that are
pairwise apart, and `VolumeMounts` slices that are pairwise apart, credential
injection, `setupEnv` followed by `setupVolume`, keeps the number and the order
of the steps; the step at each position has the environment list it had
followed by the one `DOCKER_CONFIG` entry, the mount list it had followed by
the one read-only secret mount, and the name, image, command and args it had.
This holds for every growth policy of `append`. -/
theorem secret_injection_only_appends (t : Task) (spare : Nat → Nat) (task : SlicedTask)
    (hve : ∀ st ∈ task.Steps, st.Env.Valid task.envs)
    (hae : task.Steps.Pairwise fun a b => a.Env.Apart b.Env)
    (hvm : ∀ st ∈ task.Steps, st.VolumeMounts.Valid task.mounts)
    (ham : task.Steps.Pairwise fun a b => a.VolumeMounts.Apart b.VolumeMounts) :
    (t.setupVolumeSliced spare (t.setupEnvSliced spare task)).Steps.length =
        task.Steps.length ∧
      ∀ (i : Nat) (o : SlicedStep), task.Steps[i]? = some o →
        ∃ st, (t.setupVolumeSliced spare (t.setupEnvSliced spare task)).Steps[i]? = some st ∧
          st.Name = o.Name ∧ st.Image = o.Image ∧ st.Command = o.Command ∧ st.Args = o.Args ∧
          st.Env.read (t.setupVolumeSliced spare (t.setupEnvSliced spare task)).envs =
            o.Env.read task.envs ++
              [{ Name := "DOCKER_CONFIG", Value := "/" ++ t.RegistrySecret }] ∧
          st.VolumeMounts.read (t.setupVolumeSliced spare (t.setupEnvSliced spare task)).mounts =
            o.VolumeMounts.read task.mounts ++
              [{ Name := t.RegistrySecret, MountPath := "/" ++ t.RegistrySecret,
                 ReadOnly := true }] :=
  setup_sliced_steps t spare task hve hae hvm ham

/-- Witness for C10, amended: on `separateTask` the first step is appended to in
place and the second into a new array. -/
theorem secret_injection_only_appends_witness :
    ((localSecretDescriptor.setupVolumeSliced doubling
        (localSecretDescriptor.setupEnvSliced doubling separateTask)).view.Spec.Steps.map
          fun st => st.Env) =
      [[{ Name := "HOME", Value := "/root" }, { Name := "DOCKER_CONFIG", Value := "/regcred" }],
       [{ Name := "HOME", Value := "/root" }, { Name := "PATH", Value := "/bin" },
        { Name := "DOCKER_CONFIG", Value := "/regcred" }]] ∧
    (localSecretDescriptor.setupVolumeSliced doubling
        (localSecretDescriptor.setupEnvSliced doubling separateTask)).Steps.length = 2 :=
  ⟨by decide,
   (secret_injection_only_appends localSecretDescriptor doubling separateTask
      (by decide) (by decide) (by decide) (by decide)).1⟩

end Tm
